import Mathlib

/-!
A shallow embedding of the durable task execution core of the repository
(`src/ralph_wiggum_engine.py`, with the cleanup path also present in
`src/task_persistence.py`), together with theorems settling the spec's claims
about it.

Conventions of the embedding:
* Python dicts with string keys become association lists (`SD`), with Python's
  update-in-place / append-if-new semantics.
* `datetime.now()` becomes a logical clock (`clock`) carried in the engine
  state and bumped at every call, so timestamps are strictly increasing.
* Step functions (arbitrary Python callables, possibly closing over mutable
  state of their own) become functions of the number of times they have been
  invoked so far plus the current `state_data`; the invocation counters are
  ghost state (`calls`) kept alongside the task.
* Exceptions become `Except String`; `KeyboardInterrupt` and concurrent
  `suspend_task` calls landing while a step is awaiting are modelled by two
  boolean schedules indexed by the loop iteration.
* The `while` loop of `execute_task` is modelled with explicit fuel returning
  `Option`; `none` means the fuel ran out, and the entry point supplies fuel
  one larger than the loop's termination measure, which is proved sufficient.
-/

/-- Values stored in a task's `state_data` (Python values, as far as the
claims need them). -/
inductive Val where
  | vstr : String → Val
  | vnat : Nat → Val
deriving DecidableEq, Repr

/-- `state_data`: a Python dict from string keys to values, as an ordered
association list. -/
abbrev SD := List (String × Val)

/-- `d[k] = v` on a Python dict: replace in place if the key is present,
append otherwise. -/
def setKey (sd : SD) (k : String) (v : Val) : SD :=
  if sd.any (fun p => p.1 = k) then
    sd.map (fun p => if p.1 = k then (k, v) else p)
  else
    sd ++ [(k, v)]

/-- `d.get(k)` on a Python dict. -/
def getKey (sd : SD) (k : String) : Option Val :=
  (sd.find? (fun p => p.1 = k)).map (fun p => p.2)

/-- `TaskStatus` from `ralph_wiggum_engine.py`. -/
inductive TaskStatus where
  | pending
  | in_progress
  | checkpointed
  | suspended
  | completed
  | failed
  | interrupted
deriving DecidableEq, Repr

/-- A `TaskCheckpoint`: the fields the engine reads back (`step`, `data`,
`timestamp`); ids are opaque and unused by the logic. -/
structure Checkpoint where
  step : Nat
  data : SD
  time : Nat
deriving DecidableEq, Repr

/-- The fields of `AutonomyTask` that the engine's control flow reads or
writes.  `steps` (the list of callables) is carried separately, as Python
cannot persist it either. -/
structure ATask where
  status : TaskStatus
  current_step : Nat
  state_data : SD
  checkpoints : List Checkpoint
  result : Option Val
  error : Option String
  max_retries : Nat
  retry_count : Nat
  started_at : Option Nat
  completed_at : Option Nat
deriving DecidableEq, Repr

/-- Engine-side state for one task: the in-memory task, the ghost invocation
counters of its step functions, the logical clock, the log of `_save_task`
writes (most recent last) and whether the task id is in `active_tasks`. -/
structure EngineSt where
  task : ATask
  calls : List Nat
  clock : Nat
  saved : List ATask
  active : Bool
deriving DecidableEq, Repr

/-- A step function: given how many times it has been invoked before and the
current `state_data`, it either returns the updated `state_data` and a return
value, or raises an error message. -/
abbrev StepFun := Nat → SD → Except String (SD × Val)

/-- `_save_checkpoint` (lines 172-190): append a checkpoint recording the
*current* `current_step`, a copy of `state_data`, and `datetime.now()`. -/
def saveCheckpoint (st : EngineSt) : EngineSt :=
  { st with
    task := { st.task with
      checkpoints := st.task.checkpoints ++ [⟨st.task.current_step, st.task.state_data, st.clock⟩] }
    clock := st.clock + 1 }

/-- `_save_task` (lines 157-161): write the task record to the task store. -/
def saveTask (st : EngineSt) : EngineSt :=
  { st with saved := st.saved ++ [st.task] }

/-- Bump the ghost invocation counter of step `i`. -/
def bumpCalls (cs : List Nat) (i : Nat) : List Nat :=
  cs.set i (cs.getD i 0 + 1)

/-- The f-string key `step_{i}_result` of line 243. -/
def stepKey (i : Nat) : String :=
  "step_" ++ toString i ++ "_result"

/-- The `while task.current_step < len(task.steps)` loop of `execute_task`
(lines 233-276), one constructor per iteration, with explicit fuel.
`susp n = true` models a concurrent `suspend_task` call landing while
iteration `n`'s step is awaiting (before the step's own effects are applied);
`intr n = true` models a `KeyboardInterrupt` raised inside iteration `n`'s
step, caught by the handler at line 278.  Note the loop condition consults
only `current_step`, never `status`, exactly as in the source. -/
def execLoop (steps : List StepFun) (K : Nat) (susp intr : Nat → Bool) :
    Nat → Nat → EngineSt → Option (EngineSt × Bool)
  | 0, _, _ => none
  | fuel + 1, iter, st =>
    let t := st.task
    if h : t.current_step < steps.length then
      let c := st.calls.getD t.current_step 0
      let st1 : EngineSt := { st with calls := bumpCalls st.calls t.current_step }
      if intr iter then
        let st2 : EngineSt := { st1 with task := { st1.task with status := .interrupted } }
        some (saveTask (saveCheckpoint st2), false)
      else
        let st2 : EngineSt :=
          if susp iter ∧ st1.task.status = .in_progress then
            { saveTask (saveCheckpoint
                { st1 with task := { st1.task with status := .suspended } }) with
              active := false }
          else st1
        match (steps.get ⟨t.current_step, h⟩) c t.state_data with
        | .ok (sd, v) =>
          let sd2 := setKey sd (stepKey t.current_step) v
          let st3 : EngineSt := { st2 with task := { st2.task with state_data := sd2 } }
          let st4 : EngineSt :=
            if (t.current_step + 1) % K = 0 then saveCheckpoint st3 else st3
          execLoop steps K susp intr fuel (iter + 1)
            { st4 with task := { st4.task with current_step := t.current_step + 1 } }
        | .error msg =>
          let st3 : EngineSt := { st2 with task := { st2.task with error := some msg } }
          if st3.task.retry_count < st3.task.max_retries then
            execLoop steps K susp intr fuel (iter + 1)
              { st3 with task := { st3.task with retry_count := st3.task.retry_count + 1 } }
          else
            some (saveTask { st3 with task := { st3.task with status := .failed } }, false)
    else
      let t2 : ATask := { t with
        status := .completed
        completed_at := some st.clock
        result := some ((getKey t.state_data "final_result").getD (.vstr "Task completed successfully")) }
      some ({ saveTask { st with task := t2, clock := st.clock + 1 } with active := false }, true)

/-- `execute_task` (lines 208-289): early return on `Completed`/`Failed`,
`Pending → InProgress` transition, then the step loop.  The fuel handed to the
loop strictly exceeds its termination measure. -/
def executeTask (steps : List StepFun) (K : Nat) (susp intr : Nat → Bool)
    (st : EngineSt) : Option (EngineSt × Bool) :=
  let t := st.task
  if t.status = .completed ∨ t.status = .failed then
    some (st, t.status = .completed)
  else
    let st1 : EngineSt :=
      if t.status = .pending then
        { st with
          task := { t with status := .in_progress, started_at := some st.clock }
          clock := st.clock + 1
          active := true }
      else st
    execLoop steps K susp intr
      (steps.length - st1.task.current_step + st1.task.max_retries + 2) 0 st1

/-- Python's `max(checkpoints, key=lambda c: c.timestamp)`: scan the list,
replacing the running best only on a strictly greater key. -/
def maxByTime : Checkpoint → List Checkpoint → Checkpoint
  | best, [] => best
  | best, c :: cs => maxByTime (if best.time < c.time then c else best) cs

/-- `resume_task` (lines 310-335) together with `_restore_from_checkpoint`
(lines 192-206): on `Interrupted`/`Suspended`, restore `current_step` and
`state_data` from the latest-by-timestamp checkpoint (or restart at step 0
when there is none), set `InProgress`, and re-enter `execute_task`; otherwise
report "not resumable". -/
def resumeTask (steps : List StepFun) (K : Nat) (susp intr : Nat → Bool)
    (st : EngineSt) : Option (EngineSt × Bool) :=
  let t := st.task
  if t.status = .interrupted ∨ t.status = .suspended then
    match t.checkpoints with
    | [] =>
      executeTask steps K susp intr
        { st with task := { t with current_step := 0, status := .in_progress } }
    | c :: cs =>
      let latest := maxByTime c cs
      executeTask steps K susp intr
        { st with task := { t with
            current_step := latest.step
            state_data := latest.data
            status := .in_progress } }
  else
    some (st, false)

/-- `suspend_task` (lines 337-357): only an `InProgress` task is suspended;
set `Suspended`, checkpoint, persist, drop from the active set. -/
def suspendTask (st : EngineSt) : EngineSt × Bool :=
  if st.task.status = .in_progress then
    ({ saveTask (saveCheckpoint
        { st with task := { st.task with status := .suspended } }) with
       active := false }, true)
  else
    (st, false)

/-- A stored task as `cleanup_completed_tasks` (lines 399-417) sees it:
its id, status and completion time. -/
structure StoredTask where
  id : String
  status : TaskStatus
  completed_at : Option Nat
deriving DecidableEq, Repr

/-- The engine's on-disk/in-memory view relevant to cleanup: the `self.tasks`
registry, the `Task_Queues/<id>.json` files, and the
`Checkpoints/<id>_checkpoint_<n>.json` files. -/
structure Store where
  tasks : List StoredTask
  taskFiles : List String
  checkpointFiles : List (String × Nat)
deriving DecidableEq, Repr

/-- The removal predicate of `cleanup_completed_tasks` (lines 404-408):
status is `Completed`, `completed_at` is set, and it predates
`now - days_old`. -/
def cleanupRemoves (now days_old : Nat) (t : StoredTask) : Bool :=
  decide (t.status = .completed) &&
    match t.completed_at with
    | some ct => decide (ct < now - days_old)
    | none => false

/-- `cleanup_completed_tasks` (lines 399-417): drop the matching tasks from
the registry, unlink their `Task_Queues` files, leave the `Checkpoints` files
alone, print the count, and fall off the end (Python returns `None`). -/
def cleanupCompletedTasks (now days_old : Nat) (s : Store) : Store × Option Nat :=
  let toRemove := (s.tasks.filter (cleanupRemoves now days_old)).map (fun t => t.id)
  ({ tasks := s.tasks.filter (fun t => ¬ cleanupRemoves now days_old t)
     taskFiles := s.taskFiles.filter (fun f => ¬ f ∈ toRemove)
     checkpointFiles := s.checkpointFiles },
   none)

/-!
Heap model for claim C7 (`data=task.state_data.copy()` at line 179): Python
objects live on a heap of addresses; `state_data` is the address of a dict
object whose values may themselves be references to further dict objects.
`dict.copy()` allocates a new top-level dict sharing those references.
-/

/-- A Python value as stored inside a dict: a primitive, or a reference to a
heap-allocated dict object. -/
inductive PVal where
  | pstr : String → PVal
  | pnat : Nat → PVal
  | pref : Nat → PVal
deriving DecidableEq, Repr

/-- A dict object's own entries. -/
abbrev PDict := List (String × PVal)

/-- The heap: address to dict object. -/
abbrev Heap := List (Nat × PDict)

/-- Read the dict object at an address (empty for a dangling address). -/
def heapGet (h : Heap) (a : Nat) : PDict :=
  ((h.find? (fun p => p.1 = a)).map (fun p => p.2)).getD []

/-- Overwrite (or allocate) the dict object at an address. -/
def heapSet (h : Heap) (a : Nat) (d : PDict) : Heap :=
  if h.any (fun p => p.1 = a) then
    h.map (fun p => if p.1 = a then (a, d) else p)
  else
    h ++ [(a, d)]

/-- An address not yet used by the heap. -/
def freshAddr (h : Heap) : Nat :=
  (h.map (fun p => p.1)).foldr max 0 + 1

/-- `d[k] = v` on a dict object's entries. -/
def setPKey (d : PDict) (k : String) (v : PVal) : PDict :=
  if d.any (fun p => p.1 = k) then
    d.map (fun p => if p.1 = k then (k, v) else p)
  else
    d ++ [(k, v)]

/-- `task.state_data.copy()` as performed by `_save_checkpoint` (line 179):
allocate a fresh dict object holding the same entries — nested references are
shared, not copied.  Returns the new heap and the snapshot's address. -/
def checkpointSnapshot (h : Heap) (sda : Nat) : Heap × Nat :=
  let ca := freshAddr h
  (heapSet h ca (heapGet h sda), ca)

/-- What an observer sees when reading key `k` of a dict object and following
the reference stored there: the entries of the nested dict it points to (empty
when the key is absent or holds a primitive). -/
def derefEntry (h : Heap) (d : PDict) (k : String) : PDict :=
  match (d.find? (fun p => p.1 = k)).map (fun p => p.2) with
  | some (PVal.pref a) => heapGet h a
  | _ => []

/-- A freshly created task (`AutonomyTask.__init__` + `create_task`),
for a step list of length `n`. -/
def initSt (n : Nat) : EngineSt :=
  { task :=
      { status := .pending
        current_step := 0
        state_data := []
        checkpoints := []
        result := none
        error := none
        max_retries := 3
        retry_count := 0
        started_at := none
        completed_at := none }
    calls := List.replicate n 0
    clock := 0
    saved := []
    active := false }

/-- An engine operation on one task, as an external caller can issue them:
`execute` and `resume` carry the suspend/interrupt schedules of that
invocation. -/
inductive EngineOp where
  | execute : (Nat → Bool) → (Nat → Bool) → EngineOp
  | resume : (Nat → Bool) → (Nat → Bool) → EngineOp
  | suspend : EngineOp

/-- Apply one operation (a run that exhausted its fuel, which never happens,
leaves the state unchanged). -/
def runOp (steps : List StepFun) (K : Nat) : EngineOp → EngineSt → EngineSt
  | .execute sp it, st =>
    match executeTask steps K sp it st with
    | some (st2, _) => st2
    | none => st
  | .resume sp it, st =>
    match resumeTask steps K sp it st with
    | some (st2, _) => st2
    | none => st
  | .suspend, st => (suspendTask st).1

/-- Apply a sequence of operations in order. -/
def runOps (steps : List StepFun) (K : Nat) : List EngineOp → EngineSt → EngineSt
  | [], st => st
  | op :: ops, st => runOps steps K ops (runOp steps K op st)

/-- The checkpoint-ordering invariant every reachable engine state enjoys:
checkpoint `step` fields are non-decreasing in write order and bounded by
`current_step`, and checkpoint timestamps are strictly increasing and in the
clock's past. -/
structure EngineInv (st : EngineSt) : Prop where
  stepsMono : (st.task.checkpoints.map (fun c => c.step)).Pairwise (· ≤ ·)
  stepsLe : ∀ c ∈ st.task.checkpoints, c.step ≤ st.task.current_step
  timesMono : (st.task.checkpoints.map (fun c => c.time)).Pairwise (· < ·)
  timesLt : ∀ c ∈ st.task.checkpoints, c.time < st.clock

/-- The task record as it stands when the retry budget is exhausted. -/
def failedTask (t : ATask) (msg : String) : ATask :=
  { t with status := .failed, error := some msg, retry_count := t.max_retries }

/-!
Concrete scenario data used to settle the claims on explicit inputs.
-/

/-- The empty schedule: no concurrent suspend / no interrupt. -/
def never : Nat → Bool := fun _ => false

/-- A step that raises `boom` on its first invocation and succeeds from the
second on (a transiently failing step). -/
def flakyStep : StepFun := fun c sd =>
  if c = 0 then .error "boom" else .ok (sd, .vnat 7)

/-- A step that raises on every invocation. -/
def alwaysFailStep : StepFun := fun _ _ => .error "always fails"

/-- `init` of the spec's 3-step scenario. -/
def initStep : StepFun := fun _ sd => .ok (setKey sd "initialized" (.vnat 1), .vstr "ok0")

/-- `process` of the spec's 3-step scenario. -/
def processStep : StepFun := fun _ sd => .ok (setKey sd "processed" (.vnat 1), .vstr "ok1")

/-- `finalize` of the spec's 3-step scenario: writes `final_result`. -/
def finalizeStep : StepFun := fun _ sd => .ok (setKey sd "final_result" (.vstr "done"), .vstr "done")

/-- The spec's 3-step scenario task. -/
def c4Steps : List StepFun := [initStep, processStep, finalizeStep]

/-- Two plain succeeding steps. -/
def stepA : StepFun := fun _ sd => .ok (setKey sd "a" (.vnat 1), .vnat 1)

/-- See `stepA`. -/
def stepB : StepFun := fun _ sd => .ok (setKey sd "b" (.vnat 2), .vnat 2)

/-- A `KeyboardInterrupt` raised inside the second loop iteration. -/
def intrAt1 : Nat → Bool := fun n => n == 1

/-- A concurrent `suspend_task` call landing during the first loop
iteration's step. -/
def suspAt0 : Nat → Bool := fun n => n == 0

/-- `state_data` after the first two steps of the 3-step scenario. -/
def c4SD1 : SD :=
  [("initialized", .vnat 1), ("step_0_result", .vstr "ok0"),
   ("processed", .vnat 1), ("step_1_result", .vstr "ok1")]

/-- `state_data` after all three steps of the 3-step scenario. -/
def c4SD : SD :=
  [("initialized", .vnat 1), ("step_0_result", .vstr "ok0"),
   ("processed", .vnat 1), ("step_1_result", .vstr "ok1"),
   ("final_result", .vstr "done"), ("step_2_result", .vstr "done")]

/-- A shorthand: an `InProgress` task record of the concrete traces. -/
def trTask (cur : Nat) (sd : SD) (cks : List Checkpoint) : ATask :=
  { status := .in_progress
    current_step := cur
    state_data := sd
    checkpoints := cks
    result := none
    error := none
    max_retries := 3
    retry_count := 0
    started_at := some 0
    completed_at := none }

/-- Expected trace of the 3-step scenario with `K = 2`: the state after
entering the loop, and after each completed step. -/
def c4St0 : EngineSt :=
  { task := trTask 0 [] []
    calls := [0, 0, 0]
    clock := 1
    saved := []
    active := true }

/-- See `c4St0`. -/
def c4St1 : EngineSt :=
  { task := trTask 1 [("initialized", .vnat 1), ("step_0_result", .vstr "ok0")] []
    calls := [1, 0, 0]
    clock := 1
    saved := []
    active := true }

/-- See `c4St0`: the checkpoint of step index 1 has just been written. -/
def c4St2 : EngineSt :=
  { task := trTask 2 c4SD1 [⟨1, c4SD1, 1⟩]
    calls := [1, 1, 0]
    clock := 2
    saved := []
    active := true }

/-- See `c4St0`. -/
def c4St3 : EngineSt :=
  { task := trTask 3 c4SD [⟨1, c4SD1, 1⟩]
    calls := [1, 1, 1]
    clock := 2
    saved := []
    active := true }

/-- The completed task of the 3-step scenario. -/
def c4FinalTask : ATask :=
  { status := .completed
    current_step := 3
    state_data := c4SD
    checkpoints := [⟨1, c4SD1, 1⟩]
    result := some (.vstr "done")
    error := none
    max_retries := 3
    retry_count := 0
    started_at := some 0
    completed_at := some 2 }

/-- The final engine state of the 3-step scenario. -/
def c4Final : EngineSt :=
  { task := c4FinalTask
    calls := [1, 1, 1]
    clock := 3
    saved := [c4FinalTask]
    active := false }

/-- `state_data` of the flaky-step scenario after the step finally succeeds. -/
def flakySD : SD := [("step_0_result", .vnat 7)]

/-- Trace of the flaky-step scenario: state after the first (failing)
invocation. -/
def f1St1 : EngineSt :=
  { task :=
      { status := .in_progress
        current_step := 0
        state_data := []
        checkpoints := []
        result := none
        error := some "boom"
        max_retries := 3
        retry_count := 1
        started_at := some 0
        completed_at := none }
    calls := [1]
    clock := 1
    saved := []
    active := true }

/-- Trace of the flaky-step scenario: state after the successful retry. -/
def f1St2 : EngineSt :=
  { task :=
      { status := .in_progress
        current_step := 1
        state_data := flakySD
        checkpoints := []
        result := none
        error := some "boom"
        max_retries := 3
        retry_count := 1
        started_at := some 0
        completed_at := none }
    calls := [2]
    clock := 1
    saved := []
    active := true }

/-- The completed task of the flaky-step scenario: note `retry_count = 1` and
the stale `error`. -/
def flakyFinalTask : ATask :=
  { status := .completed
    current_step := 1
    state_data := flakySD
    checkpoints := []
    result := some (.vstr "Task completed successfully")
    error := some "boom"
    max_retries := 3
    retry_count := 1
    started_at := some 0
    completed_at := some 1 }

/-- Final engine state of the flaky-step scenario. -/
def flakyFinal : EngineSt :=
  { task := flakyFinalTask
    calls := [2]
    clock := 2
    saved := [flakyFinalTask]
    active := false }

/-- `state_data` after `stepA` plus its step-indexed result key. -/
def sdA : SD := [("a", .vnat 1), ("step_0_result", .vnat 1)]

/-- `state_data` after `stepA` and `stepB` plus both step-indexed keys. -/
def sdB2 : SD :=
  [("a", .vnat 1), ("step_0_result", .vnat 1), ("b", .vnat 2), ("step_1_result", .vnat 2)]

/-- Interrupt scenario: the task as persisted by the `KeyboardInterrupt`
handler during the second step. -/
def c3IntrTask : ATask :=
  { status := .interrupted
    current_step := 1
    state_data := sdA
    checkpoints := [⟨1, sdA, 1⟩]
    result := none
    error := none
    max_retries := 3
    retry_count := 0
    started_at := some 0
    completed_at := none }

/-- Interrupt scenario: engine state when `execute_task` returns after the
interrupt. -/
def c3Mid : EngineSt :=
  { task := c3IntrTask
    calls := [1, 1]
    clock := 2
    saved := [c3IntrTask]
    active := true }

/-- Interrupt scenario: state after `resume_task` restored the checkpoint. -/
def c3R0 : EngineSt :=
  { task := trTask 1 sdA [⟨1, sdA, 1⟩]
    calls := [1, 1]
    clock := 2
    saved := [c3IntrTask]
    active := true }

/-- Interrupt scenario: state after re-running step 1, which wrote a second
checkpoint with the same step index 1. -/
def c3R1 : EngineSt :=
  { task := trTask 2 sdB2 [⟨1, sdA, 1⟩, ⟨1, sdB2, 2⟩]
    calls := [1, 2]
    clock := 3
    saved := [c3IntrTask]
    active := true }

/-- Interrupt scenario: the completed task. -/
def c3FinalTask : ATask :=
  { status := .completed
    current_step := 2
    state_data := sdB2
    checkpoints := [⟨1, sdA, 1⟩, ⟨1, sdB2, 2⟩]
    result := some (.vstr "Task completed successfully")
    error := none
    max_retries := 3
    retry_count := 0
    started_at := some 0
    completed_at := some 3 }

/-- Interrupt scenario: final engine state after resume ran to completion. -/
def c3Final : EngineSt :=
  { task := c3FinalTask
    calls := [1, 2]
    clock := 4
    saved := [c3IntrTask, c3FinalTask]
    active := false }

/-- Suspend-during-run scenario: the task as persisted by `suspend_task`. -/
def c6SuspTask : ATask :=
  { status := .suspended
    current_step := 0
    state_data := []
    checkpoints := [⟨0, [], 1⟩]
    result := none
    error := none
    max_retries := 3
    retry_count := 0
    started_at := some 0
    completed_at := none }

/-- Suspend-during-run scenario: state after the first step completed even
though the task was just suspended. -/
def c6St1 : EngineSt :=
  { task :=
      { status := .suspended
        current_step := 1
        state_data := sdA
        checkpoints := [⟨0, [], 1⟩]
        result := none
        error := none
        max_retries := 3
        retry_count := 0
        started_at := some 0
        completed_at := none }
    calls := [1, 0]
    clock := 2
    saved := [c6SuspTask]
    active := false }

/-- Suspend-during-run scenario: state after the second step also ran. -/
def c6St2 : EngineSt :=
  { task :=
      { status := .suspended
        current_step := 2
        state_data := sdB2
        checkpoints := [⟨0, [], 1⟩]
        result := none
        error := none
        max_retries := 3
        retry_count := 0
        started_at := some 0
        completed_at := none }
    calls := [1, 1]
    clock := 2
    saved := [c6SuspTask]
    active := false }

/-- Suspend-during-run scenario: the loop overwrote `Suspended` with
`Completed`. -/
def c6FinalTask : ATask :=
  { status := .completed
    current_step := 2
    state_data := sdB2
    checkpoints := [⟨0, [], 1⟩]
    result := some (.vstr "Task completed successfully")
    error := none
    max_retries := 3
    retry_count := 0
    started_at := some 0
    completed_at := some 2 }

/-- Suspend-during-run scenario: final engine state. -/
def c6Final : EngineSt :=
  { task := c6FinalTask
    calls := [1, 1]
    clock := 3
    saved := [c6SuspTask, c6FinalTask]
    active := false }

/-- A suspended task with two checkpoints, for exercising `Resume`. -/
def c5St : EngineSt :=
  { task :=
      { status := .suspended
        current_step := 2
        state_data := sdA
        checkpoints := [⟨1, [], 0⟩, ⟨2, sdA, 1⟩]
        result := none
        error := none
        max_retries := 3
        retry_count := 0
        started_at := some 0
        completed_at := none }
    calls := [1, 1]
    clock := 2
    saved := []
    active := false }

/-- An `InProgress` 1-step task that has not retried yet, for exercising the
retry bound. -/
def c2WitSt : EngineSt :=
  { task := trTask 0 [] []
    calls := [0]
    clock := 1
    saved := []
    active := true }

/-- A `Completed` task, for exercising idempotent re-invocation. -/
def c8WitSt : EngineSt :=
  { task :=
      { status := .completed
        current_step := 1
        state_data := [("final_result", .vstr "ok")]
        checkpoints := []
        result := some (.vstr "ok")
        error := none
        max_retries := 3
        retry_count := 0
        started_at := some 0
        completed_at := some 1 }
    calls := [1]
    clock := 2
    saved := []
    active := false }

/-- A store with one old completed task (with a checkpoint file on disk), one
failed task and one active task. -/
def c9Store : Store :=
  { tasks := [⟨"t1", .completed, some 0⟩, ⟨"t2", .failed, some 0⟩, ⟨"t3", .in_progress, none⟩]
    taskFiles := ["t1", "t2", "t3"]
    checkpointFiles := [("t1", 0)] }

/-- A heap in which `state_data` lives at address 0 and holds, under key
`data`, a reference to the nested dict at address 1. -/
def c7Heap : Heap := [(0, [("data", .pref 1)]), (1, [("counter", .pnat 0)])]

/-- The heap right after `_save_checkpoint` copied `state_data` (the snapshot
dict sits at the fresh address 2, sharing the reference to address 1). -/
def c7Heap1 : Heap := (checkpointSnapshot c7Heap 0).1

/-- The heap after a later step mutated the nested dict at address 1 in
place. -/
def c7Heap2 : Heap := heapSet c7Heap1 1 (setPKey (heapGet c7Heap1 1) "counter" (.pnat 1))

/-- The final engine state of a run whose current step kept failing until
the retry budget ran out, after `n` invocations of that step. -/
def allFailFinal (st : EngineSt) (msg : String) (n : Nat) : EngineSt :=
  { task := failedTask st.task msg
    calls := st.calls.set st.task.current_step (st.calls.getD st.task.current_step 0 + n)
    clock := st.clock
    saved := st.saved ++ [failedTask st.task msg]
    active := st.active }

/-!
One-iteration unfolding lemmas for `execLoop`, one per control path of the
loop body.  All later proofs — both the symbolic inductions and the concrete
executions — step the loop through these, so no proof ever has to reduce a
whole run at once.
-/

/-- The invocation of the step function at `current_step` (ghost effect). -/
def bumpSt (st : EngineSt) : EngineSt :=
  { st with calls := bumpCalls st.calls st.task.current_step }

/-- Effect of a `suspend_task` call on an `InProgress` task (lines 348-354). -/
def suspEff (st : EngineSt) : EngineSt :=
  { saveTask (saveCheckpoint { st with task := { st.task with status := .suspended } }) with
    active := false }

/-- The suspend-conditional of the loop body: a concurrent `suspend_task`
landing during this iteration takes effect only if the task shows
`InProgress`. -/
def suspIf (susp : Nat → Bool) (iter : Nat) (st : EngineSt) : EngineSt :=
  if susp iter = true ∧ st.task.status = .in_progress then suspEff st else st

/-- Effect of the `KeyboardInterrupt` handler (lines 278-283). -/
def intrEff (st : EngineSt) : EngineSt :=
  saveTask (saveCheckpoint { st with task := { st.task with status := .interrupted } })

/-- The success path of one loop iteration (lines 240-249), applied to the
state `st2` as it stands after the step invocation: store the return value
under the step-indexed key, checkpoint on the `K`-boundary, advance. -/
def okCont (K cur : Nat) (st2 : EngineSt) (sd' : SD) (v : Val) : EngineSt :=
  let st3 : EngineSt := { st2 with task := { st2.task with state_data := setKey sd' (stepKey cur) v } }
  let st4 : EngineSt := if (cur + 1) % K = 0 then saveCheckpoint st3 else st3
  { st4 with task := { st4.task with current_step := cur + 1 } }

/-- The retry path of one loop iteration (lines 251-259). -/
def retryEff (st2 : EngineSt) (msg : String) : EngineSt :=
  { st2 with task := { st2.task with error := some msg, retry_count := st2.task.retry_count + 1 } }

/-- The retry-exhausted path (lines 260-263). -/
def failEff (st2 : EngineSt) (msg : String) : EngineSt :=
  saveTask { st2 with task := { st2.task with error := some msg, status := .failed } }

/-- The loop epilogue (lines 265-276). -/
def finishSt (st : EngineSt) : EngineSt :=
  { saveTask
      { st with
        task := { st.task with
          status := .completed
          completed_at := some st.clock
          result := some ((getKey st.task.state_data "final_result").getD (.vstr "Task completed successfully")) }
        clock := st.clock + 1 } with
    active := false }

/-- The `Pending → InProgress` entry transition of `execute_task`
(lines 224-227). -/
def startSt (st : EngineSt) : EngineSt :=
  { st with
    task := { st.task with status := .in_progress, started_at := some st.clock }
    clock := st.clock + 1
    active := true }

/-- The `_restore_from_checkpoint` effect followed by the `InProgress` reset
of `resume_task` (lines 324-327). -/
def restoreSt (st : EngineSt) (c : Checkpoint) (cs : List Checkpoint) : EngineSt :=
  { st with task := { st.task with
      current_step := (maxByTime c cs).step
      state_data := (maxByTime c cs).data
      status := .in_progress } }


theorem execLoop_done (steps : List StepFun) (K : Nat) (susp intr : Nat → Bool)
    (fuel iter : Nat) (st : EngineSt) (h : ¬ st.task.current_step < steps.length) :
    execLoop steps K susp intr (fuel + 1) iter st = some (finishSt st, true) := by
  simp only [execLoop, dif_neg h, finishSt]

theorem execLoop_intr (steps : List StepFun) (K : Nat) (susp intr : Nat → Bool)
    (fuel iter : Nat) (st : EngineSt) (h : st.task.current_step < steps.length)
    (hi : intr iter = true) :
    execLoop steps K susp intr (fuel + 1) iter st = some (intrEff (bumpSt st), false) := by
  simp only [execLoop, dif_pos h, hi, if_true, intrEff, bumpSt]


theorem execLoop_ok (steps : List StepFun) (K : Nat) (susp intr : Nat → Bool)
    (fuel iter : Nat) (st : EngineSt) (sd' : SD) (v : Val)
    (h : st.task.current_step < steps.length)
    (hi : intr iter = false) (hs : susp iter = false)
    (hstep : (steps.get ⟨st.task.current_step, h⟩) (st.calls.getD st.task.current_step 0)
      st.task.state_data = .ok (sd', v)) :
    execLoop steps K susp intr (fuel + 1) iter st =
      execLoop steps K susp intr fuel (iter + 1)
        (okCont K st.task.current_step (bumpSt st) sd' v) := by
  simp only [execLoop, dif_pos h, hi, hs]
  rw [hstep]
  simp [bumpSt, okCont]

theorem execLoop_ok_susp (steps : List StepFun) (K : Nat) (susp intr : Nat → Bool)
    (fuel iter : Nat) (st : EngineSt) (sd' : SD) (v : Val)
    (h : st.task.current_step < steps.length)
    (hi : intr iter = false) (hs : susp iter = true)
    (hstat : st.task.status = .in_progress)
    (hstep : (steps.get ⟨st.task.current_step, h⟩) (st.calls.getD st.task.current_step 0)
      st.task.state_data = .ok (sd', v)) :
    execLoop steps K susp intr (fuel + 1) iter st =
      execLoop steps K susp intr fuel (iter + 1)
        (okCont K st.task.current_step (suspEff (bumpSt st)) sd' v) := by
  simp only [execLoop, dif_pos h, hi, hs, hstat]
  rw [hstep]
  simp [bumpSt, okCont, suspEff, hstat]

theorem execLoop_err_retry (steps : List StepFun) (K : Nat) (susp intr : Nat → Bool)
    (fuel iter : Nat) (st : EngineSt) (msg : String)
    (h : st.task.current_step < steps.length)
    (hi : intr iter = false) (hs : susp iter = false)
    (hstep : (steps.get ⟨st.task.current_step, h⟩) (st.calls.getD st.task.current_step 0)
      st.task.state_data = .error msg)
    (hr : st.task.retry_count < st.task.max_retries) :
    execLoop steps K susp intr (fuel + 1) iter st =
      execLoop steps K susp intr fuel (iter + 1) (retryEff (bumpSt st) msg) := by
  simp only [execLoop, dif_pos h, hi, hs]
  rw [hstep]
  simp [bumpSt, retryEff, hr]

theorem execLoop_err_fail (steps : List StepFun) (K : Nat) (susp intr : Nat → Bool)
    (fuel iter : Nat) (st : EngineSt) (msg : String)
    (h : st.task.current_step < steps.length)
    (hi : intr iter = false) (hs : susp iter = false)
    (hstep : (steps.get ⟨st.task.current_step, h⟩) (st.calls.getD st.task.current_step 0)
      st.task.state_data = .error msg)
    (hr : ¬ st.task.retry_count < st.task.max_retries) :
    execLoop steps K susp intr (fuel + 1) iter st =
      some (failEff (bumpSt st) msg, false) := by
  simp only [execLoop, dif_pos h, hi, hs]
  rw [hstep]
  simp [bumpSt, failEff, hr]


theorem executeTask_terminal (steps : List StepFun) (K : Nat) (susp intr : Nat → Bool)
    (st : EngineSt) (h : st.task.status = .completed ∨ st.task.status = .failed) :
    executeTask steps K susp intr st = some (st, decide (st.task.status = .completed)) := by
  simp only [executeTask, if_pos h]

theorem executeTask_pending (steps : List StepFun) (K : Nat) (susp intr : Nat → Bool)
    (st : EngineSt) (h : st.task.status = .pending) :
    executeTask steps K susp intr st =
      execLoop steps K susp intr
        (steps.length - st.task.current_step + st.task.max_retries + 2) 0 (startSt st) := by
  simp [executeTask, h, startSt]

theorem executeTask_active (steps : List StepFun) (K : Nat) (susp intr : Nat → Bool)
    (st : EngineSt) (h1 : ¬ (st.task.status = .completed ∨ st.task.status = .failed))
    (h2 : ¬ st.task.status = .pending) :
    executeTask steps K susp intr st =
      execLoop steps K susp intr
        (steps.length - st.task.current_step + st.task.max_retries + 2) 0 st := by
  simp [executeTask, h1, h2]


theorem resumeTask_not (steps : List StepFun) (K : Nat) (susp intr : Nat → Bool)
    (st : EngineSt) (h : ¬ (st.task.status = .interrupted ∨ st.task.status = .suspended)) :
    resumeTask steps K susp intr st = some (st, false) := by
  simp only [resumeTask, if_neg h]

theorem resumeTask_fresh (steps : List StepFun) (K : Nat) (susp intr : Nat → Bool)
    (st : EngineSt) (h : st.task.status = .interrupted ∨ st.task.status = .suspended)
    (hc : st.task.checkpoints = []) :
    resumeTask steps K susp intr st =
      executeTask steps K susp intr
        { st with task := { st.task with current_step := 0, status := .in_progress } } := by
  simp only [resumeTask, if_pos h, hc]

theorem resumeTask_ckpt (steps : List StepFun) (K : Nat) (susp intr : Nat → Bool)
    (st : EngineSt) (c : Checkpoint) (cs : List Checkpoint)
    (h : st.task.status = .interrupted ∨ st.task.status = .suspended)
    (hc : st.task.checkpoints = c :: cs) :
    resumeTask steps K susp intr st =
      executeTask steps K susp intr (restoreSt st c cs) := by
  simp only [resumeTask, if_pos h, hc, restoreSt]

theorem find?_setKey_map :
    ∀ (t : SD) (k : String) (v : Val),
      t.any (fun q => q.1 = k) = true →
      (t.map (fun p => if p.1 = k then (k, v) else p)).find? (fun p => p.1 = k) = some (k, v)
  | [], k, v, ht => by simp at ht
  | p :: t, k, v, ht => by
    by_cases hp : p.1 = k
    · simp [hp]
    · have ht2 : t.any (fun q => q.1 = k) = true := by
        simp only [List.any_cons] at ht
        simpa [hp] using ht
      simpa [hp] using find?_setKey_map t k v ht2

theorem find?_append_single :
    ∀ (t : SD) (k : String) (v : Val),
      t.find? (fun p => p.1 = k) = none →
      (t ++ [(k, v)]).find? (fun p => p.1 = k) = some (k, v)
  | [], k, v, _ => by simp
  | p :: t, k, v, hn => by
    have hall := List.find?_eq_none.1 hn
    have hp : ¬ p.1 = k := by
      have := hall p (by simp)
      simpa using this
    have ht : t.find? (fun q => q.1 = k) = none :=
      List.find?_eq_none.2 (fun x hx => hall x (List.mem_cons_of_mem p hx))
    simpa [hp] using find?_append_single t k v ht

theorem getKey_setKey_self (sd : SD) (k : String) (v : Val) :
    getKey (setKey sd k v) k = some v := by
  by_cases h : sd.any (fun q => q.1 = k)
  · simp [setKey, h, getKey, find?_setKey_map sd k v h]
  · have hn : sd.find? (fun p => p.1 = k) = none := by
      rw [List.find?_eq_none]
      intro x hx hpx
      exact h (List.any_eq_true.2 ⟨x, hx, hpx⟩)
    simp [setKey, h, getKey, find?_append_single sd k v hn]

theorem maxByTime_eq_getLast :
    ∀ (cs : List Checkpoint) (c : Checkpoint),
      ((c :: cs).map (fun x => x.time)).Pairwise (· < ·) →
      maxByTime c cs = (c :: cs).getLast (List.cons_ne_nil c cs)
  | [], c, _ => rfl
  | c' :: cs', c, h => by
    have hlt : c.time < c'.time := by
      simp only [List.map_cons, List.pairwise_cons] at h
      exact h.1 c'.time (by simp)
    have htail : ((c' :: cs').map (fun x => x.time)).Pairwise (· < ·) := by
      simp only [List.map_cons, List.pairwise_cons] at h ⊢
      exact ⟨h.2.1, h.2.2⟩
    have := maxByTime_eq_getLast cs' c' htail
    simp only [maxByTime, if_pos hlt, this, List.getLast_cons (List.cons_ne_nil c' cs')]

theorem step_le_getLast :
    ∀ (l : List Checkpoint) (hne : l ≠ []),
      (l.map (fun c => c.step)).Pairwise (· ≤ ·) →
      ∀ ck ∈ l, ck.step ≤ (l.getLast hne).step
  | [], hne, _, _, hmem => absurd rfl hne
  | [a], _, _, ck, hmem => by
    simp only [List.mem_singleton] at hmem
    simp [hmem]
  | a :: b :: t, _, h, ck, hmem => by
    simp only [List.map_cons, List.pairwise_cons] at h
    rw [List.getLast_cons (List.cons_ne_nil b t)]
    rcases List.mem_cons.1 hmem with rfl | hm
    · have hmemlast : (b :: t).getLast (List.cons_ne_nil b t) ∈ b :: t := List.getLast_mem _
      exact h.1 _ (List.mem_map_of_mem _ hmemlast)
    · exact step_le_getLast (b :: t) (List.cons_ne_nil b t)
        (by simpa using h.2) ck hm

theorem execLoop_allfail (steps : List StepFun) (K : Nat) (susp intr : Nat → Bool) (msg : String) :
    ∀ (n fuel iter : Nat) (st : EngineSt) (h : st.task.current_step < steps.length),
      (∀ m, intr m = false) → (∀ m, susp m = false) →
      (∀ c sd, (steps.get ⟨st.task.current_step, h⟩) c sd = .error msg) →
      st.task.max_retries = st.task.retry_count + n →
      st.task.current_step < st.calls.length →
      n + 1 ≤ fuel →
      execLoop steps K susp intr fuel iter st =
        some ({ task := failedTask st.task msg
                calls := st.calls.set st.task.current_step
                  (st.calls.getD st.task.current_step 0 + (n + 1))
                clock := st.clock
                saved := st.saved ++ [failedTask st.task msg]
                active := st.active }, false) := by
  intro n
  induction n with
  | zero =>
    intro fuel iter st h hi hs hstep hmax hlen hfuel
    obtain ⟨f, rfl⟩ : ∃ f, fuel = f + 1 := ⟨fuel - 1, by omega⟩
    rw [execLoop_err_fail steps K susp intr f iter st msg h (hi iter) (hs iter)
      (hstep _ _) (by omega)]
    simp [failEff, bumpSt, bumpCalls, saveTask, failedTask, hmax]
  | succ n ih =>
    intro fuel iter st h hi hs hstep hmax hlen hfuel
    obtain ⟨f, rfl⟩ : ∃ f, fuel = f + 1 := ⟨fuel - 1, by omega⟩
    rw [execLoop_err_retry steps K susp intr f iter st msg h (hi iter) (hs iter)
      (hstep _ _) (by omega)]
    have hcur : (retryEff (bumpSt st) msg).task.current_step = st.task.current_step := rfl
    have h2 : (retryEff (bumpSt st) msg).task.current_step < steps.length := by
      rw [hcur]; exact h
    have := ih f (iter + 1) (retryEff (bumpSt st) msg) h2
      hi hs (fun c sd => hstep c sd)
      (by simp [retryEff, bumpSt]; omega)
      (by simp [retryEff, bumpSt, bumpCalls]; omega)
      (by omega)
    rw [this]
    simp only [retryEff, bumpSt, bumpCalls, failedTask, List.getD_eq_getElem?_getD,
      List.getElem?_set_self hlen, Option.getD_some, List.set_set]
    have harith : st.calls[st.task.current_step]?.getD 0 + 1 + (n + 1)
        = st.calls[st.task.current_step]?.getD 0 + (n + 1 + 1) := by omega
    rw [harith]

theorem execLoop_flakyrun (f : StepFun) (K : Nat) (susp intr : Nat → Bool)
    (msg : String) (v : Val) (k : Nat)
    (hfail : ∀ c sd, c < k → f c sd = .error msg)
    (hok : ∀ c sd, k ≤ c → f c sd = .ok (sd, v))
    (hK : ¬ 1 % K = 0) :
    ∀ (n fuel iter : Nat) (st : EngineSt),
      (∀ m, intr m = false) → (∀ m, susp m = false) →
      st.task.current_step = 0 →
      st.calls.getD 0 0 + n = k →
      st.task.retry_count + n ≤ st.task.max_retries →
      0 < st.calls.length →
      n + 2 ≤ fuel →
      execLoop [f] K susp intr fuel iter st =
        some (finishSt
          { task := { st.task with
              current_step := 1
              state_data := setKey st.task.state_data (stepKey 0) v
              retry_count := st.task.retry_count + n
              error := if n = 0 then st.task.error else some msg }
            calls := st.calls.set 0 (st.calls.getD 0 0 + (n + 1))
            clock := st.clock
            saved := st.saved
            active := st.active }, true) := by
  intro n
  induction n with
  | zero =>
    intro fuel iter st hi hs hcur hk hretry hlen hfuel
    obtain ⟨f1, rfl⟩ : ∃ f1, fuel = f1 + 1 := ⟨fuel - 1, by omega⟩
    have h : st.task.current_step < [f].length := by simp [hcur]
    rw [execLoop_ok [f] K susp intr f1 iter st st.task.state_data v h (hi iter) (hs iter)
      (by rw [List.get_singleton]
          exact hok _ _ (by simp [hcur] at hk ⊢; omega))]
    obtain ⟨f2, rfl⟩ : ∃ f2, f1 = f2 + 1 := ⟨f1 - 1, by omega⟩
    rw [execLoop_done [f] K susp intr f2 (iter + 1) _
      (by simp [okCont, bumpSt, hcur, hK])]
    have hst : okCont K st.task.current_step (bumpSt st) st.task.state_data v =
        { task := { st.task with
            current_step := 1
            state_data := setKey st.task.state_data (stepKey 0) v
            retry_count := st.task.retry_count + 0
            error := if 0 = 0 then st.task.error else some msg }
          calls := st.calls.set 0 (st.calls.getD 0 0 + (0 + 1))
          clock := st.clock
          saved := st.saved
          active := st.active } := by
      simp [okCont, bumpSt, bumpCalls, hcur, hK]
    rw [hst]
  | succ n ih =>
    intro fuel iter st hi hs hcur hk hretry hlen hfuel
    obtain ⟨f1, rfl⟩ : ∃ f1, fuel = f1 + 1 := ⟨fuel - 1, by omega⟩
    have h : st.task.current_step < [f].length := by simp [hcur]
    rw [execLoop_err_retry [f] K susp intr f1 iter st msg h (hi iter) (hs iter)
      (by rw [List.get_singleton]
          exact hfail _ _ (by simp [hcur] at hk ⊢; omega))
      (by omega)]
    have hcur2 : (retryEff (bumpSt st) msg).task.current_step = 0 := hcur
    have := ih f1 (iter + 1) (retryEff (bumpSt st) msg) hi hs hcur2
      (by simp only [retryEff, bumpSt, bumpCalls, hcur, List.getD_eq_getElem?_getD,
            List.getElem?_set_self (by simpa [hcur] using hlen : (0:Nat) < st.calls.length),
            Option.getD_some]
          simp [List.getD_eq_getElem?_getD] at hk
          omega)
      (by simp [retryEff, bumpSt]; omega)
      (by simp [retryEff, bumpSt, bumpCalls]; omega)
      (by omega)
    rw [this]
    simp only [retryEff, bumpSt, bumpCalls, hcur, List.getD_eq_getElem?_getD,
      List.getElem?_set_self (by simpa [hcur] using hlen : (0:Nat) < st.calls.length),
      Option.getD_some, List.set_set]
    have harith : st.calls[0]?.getD 0 + 1 + (n + 1) = st.calls[0]?.getD 0 + (n + 1 + 1) := by
      omega
    rw [harith]
    simp only [ite_self]
    rw [if_neg (Nat.succ_ne_zero n)]
    have harith2 : st.task.retry_count + 1 + n = st.task.retry_count + (n + 1) := by omega
    rw [harith2]

theorem execLoop_okG (steps : List StepFun) (K : Nat) (susp intr : Nat → Bool)
    (fuel iter : Nat) (st : EngineSt) (sd' : SD) (v : Val)
    (h : st.task.current_step < steps.length)
    (hi : intr iter = false)
    (hstep : (steps.get ⟨st.task.current_step, h⟩) (st.calls.getD st.task.current_step 0)
      st.task.state_data = .ok (sd', v)) :
    execLoop steps K susp intr (fuel + 1) iter st =
      execLoop steps K susp intr fuel (iter + 1)
        (okCont K st.task.current_step (suspIf susp iter (bumpSt st)) sd' v) := by
  simp only [execLoop, dif_pos h, hi, Bool.false_eq_true, if_false]
  rw [hstep]
  rfl

theorem execLoop_err_retryG (steps : List StepFun) (K : Nat) (susp intr : Nat → Bool)
    (fuel iter : Nat) (st : EngineSt) (msg : String)
    (h : st.task.current_step < steps.length)
    (hi : intr iter = false)
    (hstep : (steps.get ⟨st.task.current_step, h⟩) (st.calls.getD st.task.current_step 0)
      st.task.state_data = .error msg)
    (hr : st.task.retry_count < st.task.max_retries) :
    execLoop steps K susp intr (fuel + 1) iter st =
      execLoop steps K susp intr fuel (iter + 1)
        (retryEff (suspIf susp iter (bumpSt st)) msg) := by
  simp only [execLoop, dif_pos h, hi, Bool.false_eq_true, if_false]
  rw [hstep]
  simp only [suspIf, suspEff, bumpSt, retryEff]
  split <;> simp [saveTask, saveCheckpoint] <;> omega

theorem execLoop_err_failG (steps : List StepFun) (K : Nat) (susp intr : Nat → Bool)
    (fuel iter : Nat) (st : EngineSt) (msg : String)
    (h : st.task.current_step < steps.length)
    (hi : intr iter = false)
    (hstep : (steps.get ⟨st.task.current_step, h⟩) (st.calls.getD st.task.current_step 0)
      st.task.state_data = .error msg)
    (hr : ¬ st.task.retry_count < st.task.max_retries) :
    execLoop steps K susp intr (fuel + 1) iter st =
      some (failEff (suspIf susp iter (bumpSt st)) msg, false) := by
  simp only [execLoop, dif_pos h, hi, Bool.false_eq_true, if_false]
  rw [hstep]
  simp only [suspIf, suspEff, bumpSt, failEff]
  split <;> simp [saveTask, saveCheckpoint] <;> omega

theorem suspIf_error (susp : Nat → Bool) (iter : Nat) (st : EngineSt) :
    (suspIf susp iter st).task.error = st.task.error := by
  simp only [suspIf]
  split <;> rfl

theorem execLoop_error_isSome (steps : List StepFun) (K : Nat) (susp intr : Nat → Bool) :
    ∀ (fuel iter : Nat) (st stf : EngineSt) (b : Bool),
      execLoop steps K susp intr fuel iter st = some (stf, b) →
      st.task.error.isSome = true → stf.task.error.isSome = true := by
  intro fuel
  induction fuel with
  | zero => intro iter st stf b hrun; simp [execLoop] at hrun
  | succ f ih =>
    intro iter st stf b hrun herr
    by_cases h : st.task.current_step < steps.length
    · by_cases hi : intr iter = true
      · rw [execLoop_intr steps K susp intr f iter st h hi] at hrun
        injection hrun with h1
        injection h1 with h2 h3
        subst h2
        simpa [intrEff, bumpSt, saveTask, saveCheckpoint] using herr
      · have hi2 : intr iter = false := by simpa using hi
        rcases hres : (steps.get ⟨st.task.current_step, h⟩)
            (st.calls.getD st.task.current_step 0) st.task.state_data with _ | p
        · rcases Nat.lt_or_ge st.task.retry_count st.task.max_retries with hr | hr
          · rw [execLoop_err_retryG steps K susp intr f iter st _ h hi2 hres hr] at hrun
            exact ih _ _ _ _ hrun (by simp [retryEff])
          · rw [execLoop_err_failG steps K susp intr f iter st _ h hi2 hres (by omega)] at hrun
            injection hrun with h1
            injection h1 with h2 h3
            subst h2
            simp [failEff, saveTask]
        · obtain ⟨sd', v⟩ := p
          rw [execLoop_okG steps K susp intr f iter st sd' v h hi2 hres] at hrun
          refine ih _ _ _ _ hrun ?_
          have : (okCont K st.task.current_step (suspIf susp iter (bumpSt st)) sd' v).task.error =
              (suspIf susp iter (bumpSt st)).task.error := by
            simp only [okCont]
            split <;> rfl
          rw [this, suspIf_error]
          simpa [bumpSt] using herr
    · rw [execLoop_done steps K susp intr f iter st h] at hrun
      injection hrun with h1
      injection h1 with h2 h3
      subst h2
      simpa [finishSt, saveTask] using herr

theorem c4_run_eq : executeTask c4Steps 2 never never (initSt 3) = some (c4Final, true) := by
  rw [executeTask_pending c4Steps 2 never never (initSt 3) rfl]
  show execLoop c4Steps 2 never never (7 + 1) 0 c4St0 = _
  rw [execLoop_ok c4Steps 2 never never 7 0 c4St0
    [("initialized", .vnat 1)] (.vstr "ok0") (by decide) rfl rfl rfl]
  show execLoop c4Steps 2 never never (6 + 1) 1 c4St1 = _
  rw [execLoop_ok c4Steps 2 never never 6 1 c4St1
    [("initialized", .vnat 1), ("step_0_result", .vstr "ok0"), ("processed", .vnat 1)]
    (.vstr "ok1") (by decide) rfl rfl rfl]
  show execLoop c4Steps 2 never never (5 + 1) 2 c4St2 = _
  rw [execLoop_ok c4Steps 2 never never 5 2 c4St2
    [("initialized", .vnat 1), ("step_0_result", .vstr "ok0"), ("processed", .vnat 1),
     ("step_1_result", .vstr "ok1"), ("final_result", .vstr "done")]
    (.vstr "done") (by decide) rfl rfl rfl]
  show execLoop c4Steps 2 never never (4 + 1) 3 c4St3 = _
  rw [execLoop_done c4Steps 2 never never 4 3 c4St3 (by decide)]
  rfl

theorem flaky_run_eq :
    executeTask [flakyStep] 5 never never (initSt 1) = some (flakyFinal, true) := by
  rw [executeTask_pending [flakyStep] 5 never never (initSt 1) rfl]
  show execLoop [flakyStep] 5 never never (5 + 1) 0
    { task := trTask 0 [] [], calls := [0], clock := 1, saved := [], active := true } = _
  rw [execLoop_err_retry [flakyStep] 5 never never 5 0
    { task := trTask 0 [] [], calls := [0], clock := 1, saved := [], active := true }
    "boom" (by decide) rfl rfl rfl (by decide)]
  show execLoop [flakyStep] 5 never never (4 + 1) 1 f1St1 = _
  rw [execLoop_ok [flakyStep] 5 never never 4 1 f1St1
    [] (.vnat 7) (by decide) rfl rfl rfl]
  show execLoop [flakyStep] 5 never never (3 + 1) 2 f1St2 = _
  rw [execLoop_done [flakyStep] 5 never never 3 2 f1St2 (by decide)]
  rfl

theorem c3_exec_eq :
    executeTask [stepA, stepB] 2 never intrAt1 (initSt 2) = some (c3Mid, false) := by
  rw [executeTask_pending [stepA, stepB] 2 never intrAt1 (initSt 2) rfl]
  show execLoop [stepA, stepB] 2 never intrAt1 (6 + 1) 0
    { task := trTask 0 [] [], calls := [0, 0], clock := 1, saved := [], active := true } = _
  rw [execLoop_ok [stepA, stepB] 2 never intrAt1 6 0
    { task := trTask 0 [] [], calls := [0, 0], clock := 1, saved := [], active := true }
    [("a", .vnat 1)] (.vnat 1) (by decide) rfl rfl rfl]
  show execLoop [stepA, stepB] 2 never intrAt1 (5 + 1) 1
    { task := trTask 1 sdA [], calls := [1, 0], clock := 1, saved := [], active := true } = _
  rw [execLoop_intr [stepA, stepB] 2 never intrAt1 5 1
    { task := trTask 1 sdA [], calls := [1, 0], clock := 1, saved := [], active := true }
    (by decide) rfl]
  rfl

theorem c3_resume_eq :
    resumeTask [stepA, stepB] 2 never never c3Mid = some (c3Final, true) := by
  rw [resumeTask_ckpt [stepA, stepB] 2 never never c3Mid ⟨1, sdA, 1⟩ []
    (Or.inl rfl) rfl]
  show executeTask [stepA, stepB] 2 never never c3R0 = _
  rw [executeTask_active [stepA, stepB] 2 never never c3R0 (by decide) (by decide)]
  show execLoop [stepA, stepB] 2 never never (5 + 1) 0 c3R0 = _
  rw [execLoop_ok [stepA, stepB] 2 never never 5 0 c3R0
    [("a", .vnat 1), ("step_0_result", .vnat 1), ("b", .vnat 2)] (.vnat 2)
    (by decide) rfl rfl rfl]
  show execLoop [stepA, stepB] 2 never never (4 + 1) 1 c3R1 = _
  rw [execLoop_done [stepA, stepB] 2 never never 4 1 c3R1 (by decide)]
  rfl

theorem c6_run_eq :
    executeTask [stepA, stepB] 5 suspAt0 never (initSt 2) = some (c6Final, true) := by
  rw [executeTask_pending [stepA, stepB] 5 suspAt0 never (initSt 2) rfl]
  show execLoop [stepA, stepB] 5 suspAt0 never (6 + 1) 0
    { task := trTask 0 [] [], calls := [0, 0], clock := 1, saved := [], active := true } = _
  rw [execLoop_ok_susp [stepA, stepB] 5 suspAt0 never 6 0
    { task := trTask 0 [] [], calls := [0, 0], clock := 1, saved := [], active := true }
    [("a", .vnat 1)] (.vnat 1) (by decide) rfl rfl rfl rfl]
  show execLoop [stepA, stepB] 5 suspAt0 never (5 + 1) 1 c6St1 = _
  rw [execLoop_ok [stepA, stepB] 5 suspAt0 never 5 1 c6St1
    [("a", .vnat 1), ("step_0_result", .vnat 1), ("b", .vnat 2)] (.vnat 2)
    (by decide) rfl rfl rfl]
  show execLoop [stepA, stepB] 5 suspAt0 never (4 + 1) 2 c6St2 = _
  rw [execLoop_done [stepA, stepB] 5 suspAt0 never 4 2 c6St2 (by decide)]
  rfl

theorem engineInv_saveCheckpoint (st : EngineSt) (h : EngineInv st) :
    EngineInv (saveCheckpoint st) := by
  obtain ⟨sm, sl, tm, tl⟩ := h
  refine ⟨?_, ?_, ?_, ?_⟩
  · simp only [saveCheckpoint, List.map_append, List.map_cons, List.map_nil]
    rw [List.pairwise_append]
    refine ⟨sm, by simp, ?_⟩
    intro a ha b hb
    simp only [List.mem_singleton] at hb
    subst hb
    obtain ⟨c, hc, rfl⟩ := List.mem_map.1 ha
    exact sl c hc
  · intro c hc
    simp only [saveCheckpoint, List.mem_append, List.mem_singleton] at hc
    rcases hc with hc | rfl
    · exact sl c hc
    · exact le_refl _
  · simp only [saveCheckpoint, List.map_append, List.map_cons, List.map_nil]
    rw [List.pairwise_append]
    refine ⟨tm, by simp, ?_⟩
    intro a ha b hb
    simp only [List.mem_singleton] at hb
    subst hb
    obtain ⟨c, hc, rfl⟩ := List.mem_map.1 ha
    exact tl c hc
  · intro c hc
    simp only [saveCheckpoint, List.mem_append, List.mem_singleton] at hc
    rcases hc with hc | rfl
    · exact Nat.lt_succ_of_lt (tl c hc)
    · exact Nat.lt_succ_self _

theorem engineInv_of_eq (st st2 : EngineSt) (h : EngineInv st)
    (hc : st2.task.checkpoints = st.task.checkpoints)
    (hcur : st.task.current_step ≤ st2.task.current_step)
    (hcl : st.clock ≤ st2.clock) : EngineInv st2 := by
  obtain ⟨sm, sl, tm, tl⟩ := h
  refine ⟨by rw [hc]; exact sm, ?_, by rw [hc]; exact tm, ?_⟩
  · intro c hcm
    rw [hc] at hcm
    exact le_trans (sl c hcm) hcur
  · intro c hcm
    rw [hc] at hcm
    exact Nat.lt_of_lt_of_le (tl c hcm) hcl

theorem engineInv_suspEff (st : EngineSt) (h : EngineInv st) : EngineInv (suspEff st) := by
  have h1 : EngineInv { st with task := { st.task with status := TaskStatus.suspended } } :=
    engineInv_of_eq st _ h rfl (le_refl _) (le_refl _)
  have h2 := engineInv_saveCheckpoint _ h1
  exact engineInv_of_eq _ _ h2 rfl (le_refl _) (le_refl _)

theorem engineInv_suspIf (susp : Nat → Bool) (iter : Nat) (st : EngineSt) (h : EngineInv st) :
    EngineInv (suspIf susp iter st) := by
  simp only [suspIf]
  split
  · exact engineInv_suspEff st h
  · exact h

theorem engineInv_bumpSt (st : EngineSt) (h : EngineInv st) : EngineInv (bumpSt st) :=
  engineInv_of_eq st _ h rfl (le_refl _) (le_refl _)

theorem engineInv_intrEff (st : EngineSt) (h : EngineInv st) : EngineInv (intrEff st) := by
  have h1 : EngineInv { st with task := { st.task with status := TaskStatus.interrupted } } :=
    engineInv_of_eq st _ h rfl (le_refl _) (le_refl _)
  have h2 := engineInv_saveCheckpoint _ h1
  exact engineInv_of_eq _ _ h2 rfl (le_refl _) (le_refl _)

theorem engineInv_okCont (K cur : Nat) (st2 : EngineSt) (sd2 : SD) (v : Val)
    (h : EngineInv st2) (hcur : st2.task.current_step = cur) :
    EngineInv (okCont K cur st2 sd2 v) := by
  have h3 : EngineInv { st2 with task := { st2.task with state_data := setKey sd2 (stepKey cur) v } } :=
    engineInv_of_eq st2 _ h rfl (le_refl _) (le_refl _)
  simp only [okCont]
  split
  · refine engineInv_of_eq _ _ (engineInv_saveCheckpoint _ h3) rfl ?_ (le_refl _)
    simp [saveCheckpoint, hcur]
  · refine engineInv_of_eq _ _ h3 rfl ?_ (le_refl _)
    simp [hcur]

theorem engineInv_retryEff (st : EngineSt) (msg : String) (h : EngineInv st) :
    EngineInv (retryEff st msg) :=
  engineInv_of_eq st _ h rfl (le_refl _) (le_refl _)

theorem engineInv_failEff (st : EngineSt) (msg : String) (h : EngineInv st) :
    EngineInv (failEff st msg) :=
  engineInv_of_eq st _ h rfl (le_refl _) (le_refl _)

theorem engineInv_finishSt (st : EngineSt) (h : EngineInv st) : EngineInv (finishSt st) :=
  engineInv_of_eq st _ h rfl (le_refl _) (Nat.le_succ _)

theorem engineInv_startSt (st : EngineSt) (h : EngineInv st) : EngineInv (startSt st) :=
  engineInv_of_eq st _ h rfl (le_refl _) (Nat.le_succ _)

theorem execLoop_inv (steps : List StepFun) (K : Nat) (susp intr : Nat → Bool) :
    ∀ (fuel iter : Nat) (st stf : EngineSt) (b : Bool),
      execLoop steps K susp intr fuel iter st = some (stf, b) →
      EngineInv st → EngineInv stf := by
  intro fuel
  induction fuel with
  | zero => intro iter st stf b hrun; simp [execLoop] at hrun
  | succ f ih =>
    intro iter st stf b hrun hinv
    by_cases h : st.task.current_step < steps.length
    · by_cases hi : intr iter = true
      · rw [execLoop_intr steps K susp intr f iter st h hi] at hrun
        injection hrun with h1
        injection h1 with h2 h3
        subst h2
        exact engineInv_intrEff _ (engineInv_bumpSt _ hinv)
      · have hi2 : intr iter = false := by simpa using hi
        rcases hres : (steps.get ⟨st.task.current_step, h⟩)
            (st.calls.getD st.task.current_step 0) st.task.state_data with msg | p
        · rcases Nat.lt_or_ge st.task.retry_count st.task.max_retries with hr | hr
          · rw [execLoop_err_retryG steps K susp intr f iter st msg h hi2 hres hr] at hrun
            exact ih _ _ _ _ hrun
              (engineInv_retryEff _ _ (engineInv_suspIf _ _ _ (engineInv_bumpSt _ hinv)))
          · rw [execLoop_err_failG steps K susp intr f iter st msg h hi2 hres (by omega)] at hrun
            injection hrun with h1
            injection h1 with h2 h3
            subst h2
            exact engineInv_failEff _ _ (engineInv_suspIf _ _ _ (engineInv_bumpSt _ hinv))
        · obtain ⟨sd2, v⟩ := p
          rw [execLoop_okG steps K susp intr f iter st sd2 v h hi2 hres] at hrun
          refine ih _ _ _ _ hrun ?_
          refine engineInv_okCont _ _ _ _ _
            (engineInv_suspIf _ _ _ (engineInv_bumpSt _ hinv)) ?_
          simp only [suspIf]
          split <;> rfl
    · rw [execLoop_done steps K susp intr f iter st h] at hrun
      injection hrun with h1
      injection h1 with h2 h3
      subst h2
      exact engineInv_finishSt _ hinv

theorem executeTask_inv (steps : List StepFun) (K : Nat) (susp intr : Nat → Bool)
    (st stf : EngineSt) (b : Bool)
    (hrun : executeTask steps K susp intr st = some (stf, b)) (hinv : EngineInv st) :
    EngineInv stf := by
  by_cases ht : st.task.status = .completed ∨ st.task.status = .failed
  · rw [executeTask_terminal steps K susp intr st ht] at hrun
    injection hrun with h1
    injection h1 with h2 h3
    subst h2
    exact hinv
  · by_cases hp : st.task.status = .pending
    · rw [executeTask_pending steps K susp intr st hp] at hrun
      exact execLoop_inv steps K susp intr _ _ _ _ _ hrun (engineInv_startSt _ hinv)
    · rw [executeTask_active steps K susp intr st ht hp] at hrun
      exact execLoop_inv steps K susp intr _ _ _ _ _ hrun hinv

theorem step_le_maxByTime (c : Checkpoint) (cs : List Checkpoint)
    (hs : ((c :: cs).map (fun x => x.step)).Pairwise (· ≤ ·))
    (ht : ((c :: cs).map (fun x => x.time)).Pairwise (· < ·)) :
    ∀ ck ∈ c :: cs, ck.step ≤ (maxByTime c cs).step := by
  rw [maxByTime_eq_getLast cs c ht]
  exact step_le_getLast (c :: cs) (List.cons_ne_nil c cs) hs

theorem engineInv_restoreSt (st : EngineSt) (c : Checkpoint) (cs : List Checkpoint)
    (hck : st.task.checkpoints = c :: cs) (hinv : EngineInv st) :
    EngineInv (restoreSt st c cs) := by
  obtain ⟨sm, sl, tm, tl⟩ := hinv
  refine ⟨sm, ?_, tm, tl⟩
  intro ck hcm
  show ck.step ≤ (maxByTime c cs).step
  refine step_le_maxByTime c cs ?_ ?_ ck (by rw [← hck]; exact hcm)
  · rw [← hck]; exact sm
  · rw [← hck]; exact tm

theorem resumeTask_inv (steps : List StepFun) (K : Nat) (susp intr : Nat → Bool)
    (st stf : EngineSt) (b : Bool)
    (hrun : resumeTask steps K susp intr st = some (stf, b)) (hinv : EngineInv st) :
    EngineInv stf := by
  by_cases hres : st.task.status = .interrupted ∨ st.task.status = .suspended
  · rcases hck : st.task.checkpoints with _ | ⟨c, cs⟩
    · rw [resumeTask_fresh steps K susp intr st hres hck] at hrun
      refine executeTask_inv steps K susp intr _ _ _ hrun ?_
      obtain ⟨sm, sl, tm, tl⟩ := hinv
      refine ⟨by simpa [hck] using sm, ?_, by simpa [hck] using tm, ?_⟩
      · intro ck hcm
        simp only at hcm
        rw [hck] at hcm
        simp at hcm
      · intro ck hcm
        simp only at hcm
        rw [hck] at hcm
        simp at hcm
    · rw [resumeTask_ckpt steps K susp intr st c cs hres hck] at hrun
      exact executeTask_inv steps K susp intr _ _ _ hrun
        (engineInv_restoreSt st c cs hck hinv)
  · rw [resumeTask_not steps K susp intr st hres] at hrun
    injection hrun with h1
    injection h1 with h2 h3
    subst h2
    exact hinv

theorem suspendTask_inv (st : EngineSt) (hinv : EngineInv st) :
    EngineInv (suspendTask st).1 := by
  simp only [suspendTask]
  split
  · exact engineInv_of_eq _ _
      (engineInv_saveCheckpoint _
        (engineInv_of_eq st _ hinv rfl (le_refl _) (le_refl _)))
      rfl (le_refl _) (le_refl _)
  · exact hinv

theorem runOp_inv (steps : List StepFun) (K : Nat) (op : EngineOp) (st : EngineSt)
    (hinv : EngineInv st) : EngineInv (runOp steps K op st) := by
  rcases op with ⟨sp, it⟩ | ⟨sp, it⟩ | _
  · simp only [runOp]
    rcases hrun : executeTask steps K sp it st with _ | ⟨st2, b⟩
    · exact hinv
    · exact executeTask_inv steps K sp it st st2 b hrun hinv
  · simp only [runOp]
    rcases hrun : resumeTask steps K sp it st with _ | ⟨st2, b⟩
    · exact hinv
    · exact resumeTask_inv steps K sp it st st2 b hrun hinv
  · exact suspendTask_inv st hinv

theorem runOps_inv (steps : List StepFun) (K : Nat) :
    ∀ (ops : List EngineOp) (st : EngineSt), EngineInv st →
      EngineInv (runOps steps K ops st)
  | [], st, hinv => hinv
  | op :: ops, st, hinv =>
    runOps_inv steps K ops (runOp steps K op st) (runOp_inv steps K op st hinv)

theorem engineInv_initSt (n : Nat) : EngineInv (initSt n) := by
  refine ⟨?_, ?_, ?_, ?_⟩ <;> simp [initSt]

theorem find?_heapSet_map :
    ∀ (t : Heap) (a : Nat) (d : PDict),
      t.any (fun q => q.1 = a) = true →
      (t.map (fun p => if p.1 = a then (a, d) else p)).find? (fun p => p.1 = a) = some (a, d)
  | [], a, d, hm => by simp at hm
  | p :: t, a, d, hm => by
    by_cases hp : p.1 = a
    · simp [hp]
    · have hm2 : t.any (fun q => q.1 = a) = true := by
        simp only [List.any_cons] at hm
        simpa [hp] using hm
      simpa [hp] using find?_heapSet_map t a d hm2

theorem find?_heap_append :
    ∀ (t : Heap) (a b : Nat) (d : PDict), a ≠ b →
      (t ++ [(b, d)]).find? (fun p => p.1 = a) = t.find? (fun p => p.1 = a)
  | [], a, b, d, hab => by
    have hba : ¬ (b = a) := fun hh => hab hh.symm
    simp [hba]
  | p :: t, a, b, d, hab => by
    by_cases hp : p.1 = a
    · simp [hp]
    · simpa [hp] using find?_heap_append t a b d hab

theorem find?_heap_append_self :
    ∀ (t : Heap) (a : Nat) (d : PDict),
      t.find? (fun p => p.1 = a) = none →
      (t ++ [(a, d)]).find? (fun p => p.1 = a) = some (a, d)
  | [], a, d, _ => by simp
  | p :: t, a, d, hn => by
    have hall := List.find?_eq_none.1 hn
    have hp : ¬ p.1 = a := by
      have := hall p (by simp)
      simpa using this
    have ht : t.find? (fun q => q.1 = a) = none :=
      List.find?_eq_none.2 (fun x hx => hall x (List.mem_cons_of_mem p hx))
    simpa [hp] using find?_heap_append_self t a d ht

theorem find?_heapSet_map_ne :
    ∀ (t : Heap) (a b : Nat) (d : PDict), a ≠ b →
      (t.map (fun p => if p.1 = b then (b, d) else p)).find? (fun p => p.1 = a) =
        t.find? (fun p => p.1 = a)
  | [], a, b, d, hab => by simp
  | p :: t, a, b, d, hab => by
    by_cases hp : p.1 = b
    · have hpa : ¬ p.1 = a := by rw [hp]; exact fun hh => hab hh.symm
      have hba : ¬ (b = a) := fun hh => hab hh.symm
      simpa [hp, hpa, hba] using find?_heapSet_map_ne t a b d hab
    · by_cases hpa : p.1 = a
      · have hdec : ((fun q : Nat × PDict => decide (q.1 = a)) p) = true := by simpa using hpa
        rw [List.map_cons, if_neg hp]
        rw [List.find?_cons_of_pos (List.map (fun p => if p.1 = b then (b, d) else p) t) hdec]
        rw [List.find?_cons_of_pos t hdec]
      · simpa [hp, hpa] using find?_heapSet_map_ne t a b d hab

theorem heapGet_heapSet_self (h : Heap) (a : Nat) (d : PDict) :
    heapGet (heapSet h a d) a = d := by
  by_cases hm : h.any (fun q => q.1 = a)
  · simp [heapSet, hm, heapGet, find?_heapSet_map h a d hm]
  · have hn : h.find? (fun p => p.1 = a) = none := by
      rw [List.find?_eq_none]
      intro x hx hpx
      exact hm (List.any_eq_true.2 ⟨x, hx, hpx⟩)
    simp [heapSet, hm, heapGet, find?_heap_append_self h a d hn]

theorem heapGet_heapSet_ne (h : Heap) (a b : Nat) (d : PDict) (hab : a ≠ b) :
    heapGet (heapSet h b d) a = heapGet h a := by
  by_cases hm : h.any (fun q => q.1 = b)
  · simp [heapSet, hm, heapGet, find?_heapSet_map_ne h a b d hab]
  · simp [heapSet, hm, heapGet, find?_heap_append h a b d hab]

theorem freshAddr_notin (h : Heap) : ∀ p ∈ h, p.1 ≠ freshAddr h := by
  intro p hp
  have hle : p.1 ≤ (h.map (fun q => q.1)).foldr max 0 := by
    have hm : p.1 ∈ h.map (fun q => q.1) := List.mem_map_of_mem _ hp
    clear hp
    induction h with
    | nil => simp at hm
    | cons q t ih =>
      simp only [List.map_cons, List.foldr_cons]
      simp only [List.map_cons, List.mem_cons] at hm
      rcases hm with heq | hm
      · rw [heq]; exact Nat.le_max_left _ _
      · exact le_trans (ih hm) (Nat.le_max_right _ _)
  simp only [freshAddr]
  omega

/-- C1: the claim fails on the code — after a transient failure followed by a
successful retry, the task completes with `retry_count = 1`, not 0: the engine
never resets `retry_count`. -/
theorem c1_retry_not_reset_cex :
    executeTask [flakyStep] 5 never never (initSt 1) = some (flakyFinal, true) ∧
    flakyFinal.task.status = .completed ∧
    flakyFinal.task.retry_count = 1 ∧
    ¬ flakyFinal.task.retry_count = 0 :=
  ⟨flaky_run_eq, rfl, rfl, by decide⟩

/-- C1 (amended): on success the engine stores the step's return value under
the step-indexed key and advances `current_step`, but `retry_count` keeps its
accumulated value: a fresh 1-step task whose step fails `k ≤ max_retries`
times and then succeeds completes with `retry_count = k`. -/
theorem c1_success_keeps_retry_count (f : StepFun) (K : Nat) (msg : String) (v : Val) (k : Nat)
    (hK : ¬ 1 % K = 0) (hk : k ≤ 3)
    (hfail : ∀ c sd, c < k → f c sd = .error msg)
    (hok : ∀ c sd, k ≤ c → f c sd = .ok (sd, v)) :
    ∃ stf : EngineSt,
      executeTask [f] K never never (initSt 1) = some (stf, true) ∧
      stf.task.status = .completed ∧
      stf.task.current_step = 1 ∧
      getKey stf.task.state_data (stepKey 0) = some v ∧
      stf.task.retry_count = k := by
  have h1 := executeTask_pending [f] K never never (initSt 1) rfl
  have h2 := execLoop_flakyrun f K never never msg v k hfail hok hK k
    ([f].length - (startSt (initSt 1)).task.current_step +
      (startSt (initSt 1)).task.max_retries + 2) 0
    (startSt (initSt 1)) (fun _ => rfl) (fun _ => rfl) rfl
    (by show 0 + k = k; omega)
    (by show 0 + k ≤ 3; omega)
    (by decide)
    (by show k + 2 ≤ 6; omega)
  refine ⟨_, h1.trans h2, rfl, rfl, ?_, ?_⟩
  · show getKey (setKey (startSt (initSt 1)).task.state_data (stepKey 0) v) (stepKey 0) = some v
    exact getKey_setKey_self _ _ _
  · show 0 + k = k
    omega

theorem c1_success_keeps_retry_count_witness :
    ∃ stf : EngineSt,
      executeTask [flakyStep] 5 never never (initSt 1) = some (stf, true) ∧
      stf.task.status = .completed ∧
      stf.task.current_step = 1 ∧
      getKey stf.task.state_data (stepKey 0) = some (.vnat 7) ∧
      stf.task.retry_count = 1 :=
  c1_success_keeps_retry_count flakyStep 5 "boom" (.vnat 7) 1 (by decide) (by decide)
    (fun c sd hc => by
      have : c = 0 := by omega
      subst this
      rfl)
    (fun c sd hc => by
      have : ¬ c = 0 := by omega
      simp [flakyStep, this])

/-- C2: a step that always fails is invoked exactly `max_retries + 1` times;
the engine never advances or rolls back `current_step`, marks the task
`Failed` with the error recorded, persists it once, and returns failure. -/
theorem c2_retry_bound (steps : List StepFun) (K : Nat) (msg : String) (st : EngineSt)
    (h : st.task.current_step < steps.length)
    (hstep : ∀ c sd, (steps.get ⟨st.task.current_step, h⟩) c sd = .error msg)
    (hretry : st.task.retry_count = 0)
    (hlen : st.task.current_step < st.calls.length) :
    (st.task.status = .in_progress →
      executeTask steps K never never st =
        some (allFailFinal st msg (st.task.max_retries + 1), false)) ∧
    (st.task.status = .pending →
      executeTask steps K never never st =
        some (allFailFinal (startSt st) msg (st.task.max_retries + 1), false)) := by
  constructor
  · intro hstat
    rw [executeTask_active steps K never never st (by simp [hstat]) (by simp [hstat])]
    exact execLoop_allfail steps K never never msg st.task.max_retries
      (steps.length - st.task.current_step + st.task.max_retries + 2) 0 st h
      (fun _ => rfl) (fun _ => rfl) hstep (by omega) hlen (by omega)
  · intro hstat
    rw [executeTask_pending steps K never never st hstat]
    exact execLoop_allfail steps K never never msg st.task.max_retries
      (steps.length - st.task.current_step + st.task.max_retries + 2) 0 (startSt st)
      h (fun _ => rfl) (fun _ => rfl) hstep
      (by show st.task.max_retries = st.task.retry_count + st.task.max_retries; omega)
      hlen (by omega)

theorem c2_retry_bound_witness :
    executeTask [alwaysFailStep] 5 never never c2WitSt =
      some (allFailFinal c2WitSt "always fails" 4, false) :=
  (c2_retry_bound [alwaysFailStep] 5 "always fails" c2WitSt (by decide)
    (fun _ _ => rfl) rfl (by decide)).1 rfl

/-- C3: the claim fails on the code — a `KeyboardInterrupt` during step 1
writes a checkpoint at step index 1; `Resume` re-runs step 1 and the periodic
checkpoint then records step index 1 again, so the persisted sequence of
step indices is `[1, 1]`, which is not strictly increasing. -/
theorem c3_checkpoint_steps_not_strict_cex :
    executeTask [stepA, stepB] 2 never intrAt1 (initSt 2) = some (c3Mid, false) ∧
    resumeTask [stepA, stepB] 2 never never c3Mid = some (c3Final, true) ∧
    c3Final.task.checkpoints.map (fun c => c.step) = [1, 1] ∧
    ¬ (c3Final.task.checkpoints.map (fun c => c.step)).Pairwise (· < ·) :=
  ⟨c3_exec_eq, c3_resume_eq, rfl, by decide⟩

/-- C3 (amended): across any sequence of Execute/Suspend/Resume operations on
a freshly created task, the `step_index` values of the persisted checkpoints,
in write order, are non-decreasing (not strictly increasing). -/
theorem c3_checkpoint_steps_nondecreasing (steps : List StepFun) (K n : Nat)
    (ops : List EngineOp) :
    ((runOps steps K ops (initSt n)).task.checkpoints.map (fun c => c.step)).Pairwise (· ≤ ·) :=
  (runOps_inv steps K ops (initSt n) (engineInv_initSt n)).stepsMono

/-- C4: the claim fails on the code — in the spec's 3-step scenario with
`K = 2`, the single checkpoint records step index 1 (the index of the step
completed at checkpoint time), not 2. -/
theorem c4_checkpoint_at_two_cex :
    executeTask c4Steps 2 never never (initSt 3) = some (c4Final, true) ∧
    c4Final.task.checkpoints.map (fun c => c.step) = [1] ∧
    ¬ ∃ ck ∈ c4Final.task.checkpoints, ck.step = 2 :=
  ⟨c4_run_eq, rfl, by decide⟩

/-- C4 (amended): the 3-step scenario with `K = 2` completes with
`status = Completed`, `current_step = 3`, exactly one checkpoint — whose
`step_index` is 1 — and `result` equal to the value written under
`final_result` by the last step. -/
theorem c4_scenario_checkpoint_at_one :
    executeTask c4Steps 2 never never (initSt 3) = some (c4Final, true) ∧
    c4Final.task.status = .completed ∧
    c4Final.task.current_step = 3 ∧
    c4Final.task.checkpoints.length = 1 ∧
    c4Final.task.checkpoints.map (fun c => c.step) = [1] ∧
    getKey c4Final.task.state_data "final_result" = some (.vstr "done") ∧
    c4Final.task.result = some (.vstr "done") :=
  ⟨c4_run_eq, rfl, rfl, rfl, rfl, by decide, rfl⟩

/-- C5: on an `Interrupted`/`Suspended` task with checkpoints, `Resume`
restores `current_step` and `state_data` from the checkpoint selected by
greatest timestamp, which — checkpoint step indices being non-decreasing and
timestamps strictly increasing in write order — is the most recent checkpoint
and carries the greatest `step_index`; the task is set to `InProgress` and
execution re-entered. -/
theorem c5_resume_restores_latest (steps : List StepFun) (K : Nat) (susp intr : Nat → Bool)
    (st : EngineSt) (c : Checkpoint) (cs : List Checkpoint)
    (hres : st.task.status = .interrupted ∨ st.task.status = .suspended)
    (hck : st.task.checkpoints = c :: cs)
    (hs : ((c :: cs).map (fun x => x.step)).Pairwise (· ≤ ·))
    (ht : ((c :: cs).map (fun x => x.time)).Pairwise (· < ·)) :
    resumeTask steps K susp intr st = executeTask steps K susp intr (restoreSt st c cs) ∧
    (restoreSt st c cs).task.status = .in_progress ∧
    (restoreSt st c cs).task.current_step = (maxByTime c cs).step ∧
    (restoreSt st c cs).task.state_data = (maxByTime c cs).data ∧
    maxByTime c cs = (c :: cs).getLast (List.cons_ne_nil c cs) ∧
    (∀ ck ∈ c :: cs, ck.step ≤ (maxByTime c cs).step) :=
  ⟨resumeTask_ckpt steps K susp intr st c cs hres hck, rfl, rfl, rfl,
    maxByTime_eq_getLast cs c ht, step_le_maxByTime c cs hs ht⟩

theorem c5_resume_restores_latest_witness :
    resumeTask [stepA, stepB] 5 never never c5St =
      executeTask [stepA, stepB] 5 never never (restoreSt c5St ⟨1, [], 0⟩ [⟨2, sdA, 1⟩]) ∧
    (restoreSt c5St ⟨1, [], 0⟩ [⟨2, sdA, 1⟩]).task.status = .in_progress ∧
    (restoreSt c5St ⟨1, [], 0⟩ [⟨2, sdA, 1⟩]).task.current_step =
      (maxByTime ⟨1, [], 0⟩ [⟨2, sdA, 1⟩]).step ∧
    (restoreSt c5St ⟨1, [], 0⟩ [⟨2, sdA, 1⟩]).task.state_data =
      (maxByTime ⟨1, [], 0⟩ [⟨2, sdA, 1⟩]).data ∧
    maxByTime ⟨1, [], 0⟩ [⟨2, sdA, 1⟩] =
      ((⟨1, [], 0⟩ : Checkpoint) :: [⟨2, sdA, 1⟩]).getLast (List.cons_ne_nil _ _) ∧
    (∀ ck ∈ (⟨1, [], 0⟩ : Checkpoint) :: [⟨2, sdA, 1⟩],
      ck.step ≤ (maxByTime ⟨1, [], 0⟩ [⟨2, sdA, 1⟩]).step) :=
  c5_resume_restores_latest [stepA, stepB] 5 never never c5St ⟨1, [], 0⟩ [⟨2, sdA, 1⟩]
    (Or.inr rfl) rfl (by decide) (by decide)

/-- C6: the code contradicts the spec's cooperative-cancellation requirement —
the execute loop never consults the task's status between steps.  With a
`suspend_task` landing during the first step of a 2-step task, the suspension
is persisted (the save log records a `Suspended` task and its checkpoint),
yet the loop still invokes the second step (its invocation counter reaches 1)
and finishes the task `Completed`, silently overwriting the suspension. -/
theorem c6_suspend_not_observed :
    executeTask [stepA, stepB] 5 suspAt0 never (initSt 2) = some (c6Final, true) ∧
    c6Final.saved.map (fun t => t.status) = [.suspended, .completed] ∧
    c6Final.calls = [1, 1] ∧
    c6Final.task.status = .completed :=
  ⟨c6_run_eq, rfl, rfl, rfl⟩

theorem executeTask_error_isSome (steps : List StepFun) (K : Nat) (susp intr : Nat → Bool)
    (st stf : EngineSt) (b : Bool)
    (hrun : executeTask steps K susp intr st = some (stf, b))
    (herr : st.task.error.isSome = true) : stf.task.error.isSome = true := by
  by_cases ht : st.task.status = .completed ∨ st.task.status = .failed
  · rw [executeTask_terminal steps K susp intr st ht] at hrun
    injection hrun with h1
    injection h1 with h2 h3
    subst h2
    exact herr
  · by_cases hp : st.task.status = .pending
    · rw [executeTask_pending steps K susp intr st hp] at hrun
      exact execLoop_error_isSome steps K susp intr _ _ _ _ _ hrun
        (by simpa [startSt] using herr)
    · rw [executeTask_active steps K susp intr st ht hp] at hrun
      exact execLoop_error_isSome steps K susp intr _ _ _ _ _ hrun herr

theorem resumeTask_error_isSome (steps : List StepFun) (K : Nat) (susp intr : Nat → Bool)
    (st stf : EngineSt) (b : Bool)
    (hrun : resumeTask steps K susp intr st = some (stf, b))
    (herr : st.task.error.isSome = true) : stf.task.error.isSome = true := by
  by_cases hres : st.task.status = .interrupted ∨ st.task.status = .suspended
  · rcases hck : st.task.checkpoints with _ | ⟨c, cs⟩
    · rw [resumeTask_fresh steps K susp intr st hres hck] at hrun
      exact executeTask_error_isSome steps K susp intr _ _ _ hrun herr
    · rw [resumeTask_ckpt steps K susp intr st c cs hres hck] at hrun
      exact executeTask_error_isSome steps K susp intr _ _ _ hrun
        (by simpa [restoreSt] using herr)
  · rw [resumeTask_not steps K susp intr st hres] at hrun
    injection hrun with h1
    injection h1 with h2 h3
    subst h2
    exact herr

theorem suspendTask_error (st : EngineSt) : (suspendTask st).1.task.error = st.task.error := by
  simp only [suspendTask]
  split <;> rfl

/-- C7: the claim fails on the code — `_save_checkpoint` takes a shallow
`dict.copy()`.  With `state_data` holding a reference to a nested dict, a
later in-place mutation of that nested dict changes what the checkpoint's
snapshot shows: the snapshot is not a deep copy and is not immutable. -/
theorem c7_snapshot_not_deep_cex :
    (checkpointSnapshot c7Heap 0).2 = 2 ∧
    derefEntry c7Heap1 (heapGet c7Heap1 2) "data" = [("counter", .pnat 0)] ∧
    derefEntry c7Heap2 (heapGet c7Heap2 2) "data" = [("counter", .pnat 1)] ∧
    ¬ derefEntry c7Heap2 (heapGet c7Heap2 2) "data" =
        derefEntry c7Heap1 (heapGet c7Heap1 2) "data" :=
  ⟨rfl, rfl, rfl, by decide⟩

/-- C7 (amended): the snapshot is a fresh top-level dict holding the entries
of `state_data` at checkpoint time — it lives at a fresh address, and later
top-level writes to `state_data` leave it unchanged; only in-place mutation of
shared nested objects shows through it. -/
theorem c7_snapshot_shallow (h : Heap) (sda : Nat) (d2 : PDict) :
    heapGet (checkpointSnapshot h sda).1 (checkpointSnapshot h sda).2 = heapGet h sda ∧
    (∀ p ∈ h, p.1 ≠ (checkpointSnapshot h sda).2) ∧
    (sda ≠ (checkpointSnapshot h sda).2 →
      heapGet (heapSet (checkpointSnapshot h sda).1 sda d2) (checkpointSnapshot h sda).2 =
        heapGet h sda) := by
  refine ⟨?_, ?_, ?_⟩
  · exact heapGet_heapSet_self h (freshAddr h) (heapGet h sda)
  · exact freshAddr_notin h
  · intro hne
    rw [heapGet_heapSet_ne _ _ _ _ (Ne.symm hne)]
    exact heapGet_heapSet_self h (freshAddr h) (heapGet h sda)

theorem c7_snapshot_shallow_witness :
    heapGet (checkpointSnapshot c7Heap 0).1 (checkpointSnapshot c7Heap 0).2 = heapGet c7Heap 0 ∧
    (∀ p ∈ c7Heap, p.1 ≠ (checkpointSnapshot c7Heap 0).2) ∧
    heapGet (heapSet (checkpointSnapshot c7Heap 0).1 0 [("data", .pnat 9)])
      (checkpointSnapshot c7Heap 0).2 = heapGet c7Heap 0 :=
  ⟨(c7_snapshot_shallow c7Heap 0 [("data", .pnat 9)]).1,
   (c7_snapshot_shallow c7Heap 0 [("data", .pnat 9)]).2.1,
   (c7_snapshot_shallow c7Heap 0 [("data", .pnat 9)]).2.2 (by decide)⟩

/-- C8: `Execute` on an already `Completed`/`Failed` task returns immediately
with the stored outcome — the returned state is the input state itself, so
nothing is mutated and no step function is invoked. -/
theorem c8_execute_terminal_idempotent (steps : List StepFun) (K : Nat)
    (susp intr : Nat → Bool) (st : EngineSt)
    (h : st.task.status = .completed ∨ st.task.status = .failed) :
    executeTask steps K susp intr st = some (st, decide (st.task.status = .completed)) ∧
    (st.task.status = .completed → executeTask steps K susp intr st = some (st, true)) ∧
    (st.task.status = .failed → executeTask steps K susp intr st = some (st, false)) := by
  refine ⟨executeTask_terminal steps K susp intr st h, ?_, ?_⟩
  · intro hc
    rw [executeTask_terminal steps K susp intr st h, hc]
    simp
  · intro hf
    rw [executeTask_terminal steps K susp intr st h, hf]
    simp

theorem c8_execute_terminal_idempotent_witness :
    executeTask [stepA] 5 never never c8WitSt = some (c8WitSt, true) :=
  (c8_execute_terminal_idempotent [stepA] 5 never never c8WitSt (Or.inl rfl)).2.1 rfl

/-- C9: the claim fails on the code — cleanup removes the old completed task
from the registry and the task store, but returns `None` rather than the
count of removed tasks, and the checkpoint files of the removed task stay on
disk. -/
theorem c9_cleanup_returns_none_cex :
    (cleanupCompletedTasks 10 7 c9Store).1.tasks.map (fun t => t.id) = ["t2", "t3"] ∧
    (cleanupCompletedTasks 10 7 c9Store).2 = none ∧
    ¬ (cleanupCompletedTasks 10 7 c9Store).2 = some 1 ∧
    (cleanupCompletedTasks 10 7 c9Store).1.checkpointFiles = [("t1", 0)] :=
  ⟨rfl, rfl, by decide, rfl⟩

/-- C9 (amended): cleanup removes exactly the `Completed` tasks whose
`completed_at` predates the cutoff — never `Failed` or other tasks — but it
returns no count (Python's `None`) and leaves the checkpoint files untouched. -/
theorem c9_cleanup_amended (now days : Nat) (s : Store) :
    (cleanupCompletedTasks now days s).1.tasks =
      s.tasks.filter (fun t => ¬ cleanupRemoves now days t) ∧
    (cleanupCompletedTasks now days s).1.taskFiles =
      s.taskFiles.filter
        (fun f => ¬ f ∈ (s.tasks.filter (cleanupRemoves now days)).map (fun t => t.id)) ∧
    (cleanupCompletedTasks now days s).1.checkpointFiles = s.checkpointFiles ∧
    (cleanupCompletedTasks now days s).2 = none ∧
    (∀ t ∈ s.tasks, ¬ t.status = .completed → t ∈ (cleanupCompletedTasks now days s).1.tasks) ∧
    (∀ t : StoredTask, cleanupRemoves now days t = true →
      t.status = .completed ∧ ∃ ct, t.completed_at = some ct ∧ ct < now - days) := by
  refine ⟨rfl, rfl, rfl, rfl, ?_, ?_⟩
  · intro t htm hst
    show t ∈ s.tasks.filter (fun t => ¬ cleanupRemoves now days t)
    rw [List.mem_filter]
    refine ⟨htm, ?_⟩
    simp [cleanupRemoves, hst]
  · intro t hrem
    simp only [cleanupRemoves, Bool.and_eq_true, decide_eq_true_eq] at hrem
    rcases hrem with ⟨h1, h2⟩
    refine ⟨h1, ?_⟩
    rcases hct : t.completed_at with _ | ct
    · rw [hct] at h2; simp at h2
    · rw [hct] at h2
      exact ⟨ct, rfl, by simpa using h2⟩

theorem c9_cleanup_amended_witness :
    (cleanupCompletedTasks 10 7 c9Store).2 = none ∧
    (⟨"t2", .failed, some 0⟩ : StoredTask) ∈ (cleanupCompletedTasks 10 7 c9Store).1.tasks :=
  ⟨(c9_cleanup_amended 10 7 c9Store).2.2.2.1,
   (c9_cleanup_amended 10 7 c9Store).2.2.2.2.1 _ (by decide) (by decide)⟩

/-- C10: the `error` field, once set, is never cleared by Execute, Resume or
Suspend; in particular the transiently-failing-step scenario completes with
`status = Completed` while `error` still holds the last failure message. -/
theorem c10_error_never_cleared :
    (∀ (steps : List StepFun) (K : Nat) (susp intr : Nat → Bool) (st stf : EngineSt) (b : Bool),
      executeTask steps K susp intr st = some (stf, b) →
      st.task.error.isSome = true → stf.task.error.isSome = true) ∧
    (∀ (steps : List StepFun) (K : Nat) (susp intr : Nat → Bool) (st stf : EngineSt) (b : Bool),
      resumeTask steps K susp intr st = some (stf, b) →
      st.task.error.isSome = true → stf.task.error.isSome = true) ∧
    (∀ st : EngineSt, (suspendTask st).1.task.error = st.task.error) ∧
    executeTask [flakyStep] 5 never never (initSt 1) = some (flakyFinal, true) ∧
    flakyFinal.task.status = .completed ∧
    flakyFinal.task.error = some "boom" :=
  ⟨executeTask_error_isSome, resumeTask_error_isSome, suspendTask_error,
   flaky_run_eq, rfl, rfl⟩

theorem c10_error_never_cleared_witness :
    flakyFinal.task.error.isSome = true :=
  c10_error_never_cleared.1 [flakyStep] 5 never never flakyFinal flakyFinal true rfl rfl
